import Mathlib

/-!
Verification development for the multi-tier e-commerce crawler in `final.py`.

The Python source is shallowly embedded: pure helpers become Lean functions on
`String`/`ℚ`/`Int`, JSON values become the inductive `Json`, product candidates
become the structure `Product`, and the effectful pipeline / database layers are
modelled as pure state transformers over explicit inputs (the outputs of the
network, DOM and database collaborators are oracle fields of an environment
record, since those collaborators are outside the embedded code).

Python floats are modelled as exact rationals; Python truthiness is modelled
explicitly wherever the source relies on it (`x or y`, `if x:`).  Rational
values are always built with `mkRat` and integer arithmetic so that every
definition evaluates on concrete inputs.
-/

namespace Crawler

/-! ### String helpers (Python `in`, `str.strip`, `str.lower`, `str.split`, token scans) -/

/-- Boolean prefix test on character lists (Python `str.startswith` and the
substring scan below). -/
def isPrefixL : List Char → List Char → Bool
  | [], _ => true
  | _ :: _, [] => false
  | a :: as, b :: bs => a == b && isPrefixL as bs

/-- Boolean substring test on character lists, modelling Python `needle in hay`. -/
def containsSubL (needle : List Char) : List Char → Bool
  | [] => isPrefixL needle []
  | h :: t => isPrefixL needle (h :: t) || containsSubL needle t

/-- Python `needle in hay` on strings. -/
def containsSub (hay needle : String) : Bool := containsSubL needle.data hay.data

/-- Python `s.startswith(pre)`. -/
def startsWithS (s pre : String) : Bool := isPrefixL pre.data s.data

/-- Python `str.lower()` (ASCII case folding; every string the source compares
after lowering is ASCII). -/
def pyToLower (s : String) : String := ⟨s.data.map Char.toLower⟩

/-- Characters stripped by Python `str.strip()` (ASCII whitespace). -/
def isPySpace (c : Char) : Bool :=
  c == ' ' || c == '\t' || c == '\n' || c == '\r' || c == '\x0b' || c == '\x0c'

/-- Python `str.strip()` on a character list. -/
def pyStripL (cs : List Char) : List Char :=
  ((cs.dropWhile isPySpace).reverse.dropWhile isPySpace).reverse

/-- Python `str.strip()`. -/
def pyStrip (s : String) : String := ⟨pyStripL s.data⟩

/-- Python `str.split(sep)` for a single-character separator. -/
def splitOnCharL (sep : Char) : List Char → List (List Char)
  | [] => [[]]
  | c :: cs =>
    if c == sep then [] :: splitOnCharL sep cs
    else
      match splitOnCharL sep cs with
      | [] => [[c]]
      | g :: gs => (c :: g) :: gs

/-- Split a character list at the first occurrence of `sep`, dropping the
separator; when `sep` is absent the second component is empty (the behaviour
`urlsplit` uses for `#` and `?`). -/
def splitFirstC (sep : Char) (cs : List Char) : List Char × List Char :=
  (cs.takeWhile (fun c => c != sep), (cs.dropWhile (fun c => c != sep)).drop 1)

/-- First maximal run of characters satisfying `p` (the first match of a regex
character-class `+` pattern, as in `re.findall(r"[\d,.]+", txt)[0]`). -/
def firstTokL (p : Char → Bool) : List Char → Option (List Char)
  | [] => none
  | c :: cs => if p c then some (c :: cs.takeWhile p) else firstTokL p cs

/-! ### Decimal numerals (Python `float`/`int` on regex tokens, `str` on numbers) -/

/-- Value of a decimal digit list (most significant first). -/
def digitsToNat (cs : List Char) : Nat :=
  cs.foldl (fun acc c => acc * 10 + (c.toNat - 48)) 0

/-- Rational value of a digits-and-at-most-one-dot token, e.g. `1299.00`:
integer part plus fractional part over the matching power of ten, assembled as
one `mkRat` so the definition evaluates. -/
def ratOfDigitTok (cs : List Char) : ℚ :=
  let ip := cs.takeWhile (fun c => c != '.')
  let fp := (cs.dropWhile (fun c => c != '.')).drop 1
  mkRat (digitsToNat (ip ++ fp)) (10 ^ fp.length)

/-- Python `float(s)` for a token of digits and dots: succeeds iff the token has at
least one digit and at most one dot (`float("1.2.3")` and `float(".")` raise). -/
def parsePyFloat (cs : List Char) : Option ℚ :=
  if cs.all (fun c => c.isDigit || c == '.') && cs.count '.' ≤ 1 && cs.any Char.isDigit then
    some (ratOfDigitTok cs)
  else none

/-- Decimal digit string of a natural number, with explicit fuel so the
definition is structurally recursive. -/
def natDecStrAux : Nat → Nat → List Char
  | 0, _ => []
  | fuel + 1, n =>
    if n < 10 then [Char.ofNat (48 + n)]
    else natDecStrAux fuel (n / 10) ++ [Char.ofNat (48 + n % 10)]

/-- Python `str(n)` for a natural number (decimal digits). -/
def natDecStr (n : Nat) : String := ⟨natDecStrAux (n + 1) n⟩

/-- Python `str(i)` for an integer. -/
def intDecStr (i : ℤ) : String :=
  if i < 0 then "-" ++ natDecStr i.natAbs else natDecStr i.natAbs

/-- Zero-pad a digit string on the left to length `k`. -/
def padZeros (s : String) (k : Nat) : String := ⟨List.replicate (k - s.length) '0'⟩ ++ s

/-- Smallest exponent `k < 19` with `q * 10^k` integral (i.e. `den ∣ 10^k`), if any. -/
def decExp (q : ℚ) : Option Nat :=
  (List.range 19).find? (fun k => 10 ^ k % q.den = 0)

/-- Model of Python `str()` on a JSON number: integers print without a decimal
point, decimal fractions print with one.  (Python float `repr` prints the
shortest decimal representation; every number appearing in the proofs below has
a finite decimal expansion, where the two agree.) -/
def decimalStringOfRat (q : ℚ) : String :=
  if q.den = 1 then intDecStr q.num
  else
    match decExp q with
    | some k =>
      let n : ℤ := q.num * ((10 ^ k / q.den : Nat) : ℤ)
      let sign := if n < 0 then "-" else ""
      let a := n.natAbs
      sign ++ natDecStr (a / 10 ^ k) ++ "." ++ padZeros (natDecStr (a % 10 ^ k)) k
    | none => intDecStr q.num ++ "/" ++ natDecStr q.den

/-! ### `_clean_text` (final.py lines 304–308) -/

/-- Collapse maximal whitespace runs to a single space, modelling
`re.sub(r"\s+", " ", text)`; the boolean tracks whether the previous
character was part of a whitespace run. -/
def collapseWsAux : Bool → List Char → List Char
  | _, [] => []
  | prevSpace, c :: cs =>
    if isPySpace c then
      if prevSpace then collapseWsAux true cs else ' ' :: collapseWsAux true cs
    else c :: collapseWsAux false cs

/-- Embedding of `_clean_text`: collapse whitespace, strip, and turn the empty
result into `None` (`return cleaned or None`). -/
def cleanText (t : Option String) : Option String :=
  match t with
  | none => none
  | some s =>
    let cleaned := pyStrip ⟨collapseWsAux false s.data⟩
    if cleaned = "" then none else some cleaned

/-! ### `_parse_price` (final.py lines 310–331) -/

/-- Embedding of `_parse_price`: detect a currency from symbol/code tokens in a fixed
priority order (INR, USD, EUR, GBP), then parse the first `[\d,.]+` token with commas
stripped as the magnitude.  `none` input and the empty string are the falsy `raw`. -/
def parsePrice (raw : Option String) : Option ℚ × Option String :=
  match raw with
  | none => (none, none)
  | some r =>
    if r = "" then (none, none)
    else
      let txt := pyStrip r
      let lowered := pyToLower txt
      let currency : Option String :=
        if containsSub lowered "₹" || containsSub lowered "rs" ||
            containsSub lowered "rs." || containsSub lowered "inr" then some "INR"
        else if containsSub txt "$" || containsSub lowered "usd" then some "USD"
        else if containsSub txt "€" || containsSub lowered "eur" then some "EUR"
        else if containsSub txt "£" || containsSub lowered "gbp" then some "GBP"
        else none
      match firstTokL (fun c => c.isDigit || c == ',' || c == '.') txt.data with
      | none => (none, currency)
      | some tok =>
        match parsePyFloat (tok.filter (fun c => c != ',')) with
        | none => (none, currency)
        | some q => (some q, currency)

/-! ### JSON values (results of `json.loads`) and Python truthiness -/

/-- Parsed JSON values.  Object key lists are assumed duplicate-free, as
`json.loads` produces. -/
inductive Json where
  | null
  | bool (b : Bool)
  | num (q : ℚ)
  | str (s : String)
  | arr (xs : List Json)
  | obj (kvs : List (String × Json))

/-- Python truthiness of a parsed JSON value (`None`, `False`, `0`, `""`, `[]`,
`{}` are falsy). -/
def Json.truthy : Json → Bool
  | .null => false
  | .bool b => b
  | .num q => q != 0
  | .str s => s != ""
  | .arr xs => !xs.isEmpty
  | .obj kvs => !kvs.isEmpty

/-- Python `d.get(k)` on an object's key-value list (`none` when the key is
absent; a present key may map to `Json.null`, Python's `None`). -/
def jget (kvs : List (String × Json)) (k : String) : Option Json :=
  (kvs.find? (fun kv => kv.fst == k)).map (fun kv => kv.snd)

/-- Python `k in d` on an object's key-value list. -/
def hasKey (kvs : List (String × Json)) (k : String) : Bool :=
  (kvs.find? (fun kv => kv.fst == k)).isSome

/-- First truthy value of a Python `a or b or …` chain over optional JSON
values; `none` when every operand is absent or falsy.  (When Python's chain
ends in a falsy non-`None` value, every use in the source treats that value
like `None`, so this model is adequate.) -/
def firstTruthyJ : List (Option Json) → Option Json
  | [] => none
  | v :: vs =>
    match v with
    | some j => if j.truthy then some j else firstTruthyJ vs
    | none => firstTruthyJ vs

/-- String payload of a JSON value (`none` for non-strings; the source stores
such raw values in string-typed fields only in corner cases that none of the
verified properties depend on). -/
def jsonOptStr : Json → Option String
  | .str s => some s
  | _ => none

/-- Model of Python `str()` on a JSON value as used for the `str(... or '')`
conversions in the source.  Strings pass through unchanged; numbers print in
decimal; the remaining constructors print markers that never collide with the
keyword comparisons (`'listitem'`, `'product'`) applied to the result. -/
def pyStrOfJson : Json → String
  | .str s => s
  | .null => "None"
  | .bool true => "True"
  | .bool false => "False"
  | .num q => decimalStringOfRat q
  | .arr _ => "[…]"
  | .obj _ => "{…}"

/-- Python `str(chain or '')` for an or-chain already resolved by
`firstTruthyJ`. -/
def jStrOrEmpty (o : Option Json) : String :=
  match o with
  | some v => pyStrOfJson v
  | none => ""

/-- Python `float(x)` on a JSON value (used by `_extract_wix_product`):
numbers convert exactly, `True`/`False` convert to 1/0, numeric strings parse
(optionally signed decimal), anything else raises (`none`). -/
def pyFloatOfJson : Json → Option ℚ
  | .num q => some q
  | .bool b => some (if b then 1 else 0)
  | .str s =>
    let t := pyStripL s.data
    match t with
    | '-' :: rest => (parsePyFloat rest).map (fun q => -q)
    | '+' :: rest => parsePyFloat rest
    | _ => parsePyFloat t
  | _ => none

/-! ### Product candidates -/

/-- A product candidate, as assembled by the extractors (a Python dict with
these keys; absent and `None` keys are both `none`). -/
structure Product where
  title : Option String := none
  product_url : Option String := none
  image_url : Option String := none
  price : Option ℚ := none
  currency : Option String := none
  raw_price : Option String := none
  rating : Option ℚ := none
  review_count : Option Int := none
  brand : Option String := none
  sku : Option String := none
deriving DecidableEq

/-- Python truthiness of an optional string field (absent or empty is falsy). -/
def optStrTruthy : Option String → Bool
  | none => false
  | some s => s != ""

/-- Python truthiness of an optional numeric field (absent or zero is falsy,
as in `product.get('price')`). -/
def optRatTruthy : Option ℚ → Bool
  | none => false
  | some q => q != 0

/-! ### `_parse_float` / `_parse_int` (final.py lines 333–353) -/

/-- Embedding of `_parse_float`: on a falsy value return `None`, otherwise take
the first `[\d.]+` token of `str(raw)` and convert with `float`. -/
def parseFloatPy (raw : Option Json) : Option ℚ :=
  match raw with
  | none => none
  | some v =>
    if !v.truthy then none
    else
      match firstTokL (fun c => c.isDigit || c == '.') (pyStrOfJson v).data with
      | none => none
      | some tok => parsePyFloat tok

/-- Embedding of `_parse_int`: on a falsy value return `None`, otherwise take
the first `\d+` token of `str(raw)` and convert with `int` (always succeeds on
a nonempty digit run). -/
def parseIntPy (raw : Option Json) : Option Int :=
  match raw with
  | none => none
  | some v =>
    if !v.truthy then none
    else
      match firstTokL Char.isDigit (pyStrOfJson v).data with
      | none => none
      | some tok => some (digitsToNat tok : Int)

/-! ### URL parsing and joining (`urllib.parse`, consumed by the source) -/

/-- Components returned by `urllib.parse.urlparse` (params are not used by the
source and are folded into the path). -/
structure ParsedUrl where
  scheme : String
  netloc : String
  path : String
  query : String
  fragment : String

/-- Model of `urllib.parse.urlparse` for the URL shapes the pipeline handles:
absolute `scheme://netloc/path?query#fragment` URLs and scheme-less relative
references (for which scheme and netloc are empty). -/
def urlparseM (u : String) : ParsedUrl :=
  let cs := u.data
  let hasScheme := containsSubL "://".data cs
  let schemeL := if hasScheme then cs.takeWhile (fun c => c != ':') else []
  let rest1 := if hasScheme then (cs.dropWhile (fun c => c != ':')).drop 3 else cs
  let netlocL :=
    if hasScheme then rest1.takeWhile (fun c => c != '/' && c != '?' && c != '#') else []
  let rest2 := if hasScheme then rest1.drop netlocL.length else rest1
  let (beforeFrag, fragL) := splitFirstC '#' rest2
  let (pathL, queryL) := splitFirstC '?' beforeFrag
  { scheme := ⟨schemeL⟩, netloc := ⟨netlocL⟩, path := ⟨pathL⟩,
    query := ⟨queryL⟩, fragment := ⟨fragL⟩ }

/-- Path directory prefix used when joining a relative reference: everything up
to and including the last `/`, or `/` when the path has none. -/
def dirOfPath (path : String) : String :=
  if path.data.contains '/' then
    ⟨(path.data.reverse.dropWhile (fun c => c != '/')).reverse⟩
  else "/"

/-- Model of the documented behaviour of `urllib.parse.urljoin` for the
reference shapes the pipeline constructs: empty references return the base,
absolute URLs replace it, `//`-references keep the scheme, absolute paths keep
the origin, and other relative references resolve against the base path's
directory. -/
def urljoinM (base u : String) : String :=
  if u = "" then base
  else if containsSub u "://" then u
  else if startsWithS u "//" then (urlparseM base).scheme ++ ":" ++ u
  else if startsWithS u "/" then
    let p := urlparseM base
    p.scheme ++ "://" ++ p.netloc ++ u
  else
    let p := urlparseM base
    p.scheme ++ "://" ++ p.netloc ++ dirOfPath p.path ++ u

/-! ### `_is_blacklisted_link` / `_is_product_like_path` (final.py lines 355–386) -/

/-- Blacklist of non-product path keywords. -/
def blacklistKeywords : List String :=
  ["login", "register", "signup", "account", "cart", "wishlist",
   "checkout", "help", "faq", "contact", "privacy", "terms"]

/-- Embedding of `_is_blacklisted_link`. -/
def isBlacklistedLink (href : String) : Bool :=
  if href = "" then true
  else
    let h := pyToLower href
    if startsWithS h "javascript:" || startsWithS h "mailto:" || startsWithS h "tel:" then true
    else blacklistKeywords.any (fun k => containsSub h k)

/-- Product-shaped path keywords. -/
def productKeywords : List String :=
  ["/product", "/products", "/item", "/items", "/p/", "/dp/", "/pd/", "/pdp",
   "/shop/", "/store/", "/catalog", "/collection", "/listing", "/detail", "/sku"]

/-- Negative keywords that short-circuit the product-shape check to reject. -/
def negativeKeywords : List String :=
  ["search", "account", "contact", "login", "register"]

/-- Python `s.isdigit()` restricted to ASCII: nonempty and all decimal digits.
(`path.split('/')[-1:]` iterates over a one-element list of segments, so the
final check of `_is_product_like_path` tests whether the whole last segment is
a digit string.) -/
def pyStrIsDigit (cs : List Char) : Bool :=
  !cs.isEmpty && cs.all Char.isDigit

/-- Embedding of `_is_product_like_path`: product keywords accept, negative
keywords reject, otherwise accept paths with two slashes and length over 3, or
an all-digits last segment. -/
def isProductLikePath (href : String) : Bool :=
  let parsed := urlparseM href
  let path := pyToLower parsed.path
  let query := pyToLower parsed.query
  let combined := path ++ "?" ++ query
  if productKeywords.any (fun k => containsSub combined k) then true
  else if negativeKeywords.any (fun k => containsSub combined k) then false
  else if 2 ≤ path.data.count '/' && 3 < path.length then true
  else
    match (splitOnCharL '/' path.data).getLast? with
    | some lastSeg => pyStrIsDigit lastSeg
    | none => false

/-! ### `_is_valid_product` (final.py lines 388–401) -/

/-- Embedding of `_is_valid_product`.  The `base_url` parameter is unused, as
in the source.  Note the Python truthiness of `product.get('price')`: a price
of `0` does not count as "has a price". -/
def isValidProduct (product : Product) (base_url : String) : Bool :=
  let url := product.product_url
  let title := cleanText product.title
  if !optStrTruthy url then false
  else if isBlacklistedLink (url.getD "") then false
  else if !isProductLikePath (url.getD "") &&
      !(optRatTruthy product.price && optStrTruthy title) then false
  else if optStrTruthy title && (title.getD "").length < 2 then false
  else if !optStrTruthy title && !optRatTruthy product.price then false
  else true

/-! ### `_extract_wix_product` (final.py lines 512–573) -/

/-- Python `x or ''` applied to an optional JSON value before use as a string
argument (`urljoin(base, image or '')` and friends). -/
def jUrlArg (o : Option Json) : String :=
  match o with
  | some v => if v.truthy then pyStrOfJson v else ""
  | none => ""

/-- Image extraction step of `_extract_wix_product`.  The outer `none` models
the `AttributeError` raised (and swallowed into a `None` result) when
`mainMedia` is present but not a dict; `some img` carries the image URL, if
any. -/
def wixImage (media : Option Json) : Option (Option String) :=
  match media with
  | some (Json.arr (m :: _)) =>
    match m with
    | Json.obj mkvs => some ((firstTruthyJ [jget mkvs "url", jget mkvs "src"]).bind jsonOptStr)
    | Json.str s => some (some s)
    | _ => some none
  | some (Json.obj mkvs) =>
    match jget mkvs "mainMedia" with
    | some (Json.obj mmkvs) =>
      some ((firstTruthyJ [jget mmkvs "url", jget mkvs "url"]).bind jsonOptStr)
    | none => some ((firstTruthyJ [jget mkvs "url"]).bind jsonOptStr)
    | some _ => none
  | _ => some none

/-- Price step of `_extract_wix_product`: read `price or priceData`; a dict
yields `(str(price or formatted or ''), float(price) when truthy, currency
entry)`, a bare number yields itself, anything else leaves everything unset.
An overall `none` models the `float()` raise on a non-numeric price (swallowed
into a `None` product). -/
def wixPriceInfo (kvs : List (String × Json)) :
    Option (Option String × Option ℚ × Option Json) :=
  match firstTruthyJ [jget kvs "price", jget kvs "priceData"] with
  | some (Json.obj pkvs) =>
    let rp := some (jStrOrEmpty (firstTruthyJ [jget pkvs "price", jget pkvs "formatted"]))
    (match firstTruthyJ [jget pkvs "price"] with
     | some v =>
       (match pyFloatOfJson v with
        | some q => some (rp, some q, jget pkvs "currency")
        | none => none)
     | none => some (rp, none, jget pkvs "currency"))
  | some (Json.num q) => some (some (decimalStringOfRat q), some q, none)
  | _ => some (none, none, none)

/-- The final validity gate shared by the extractors: return the product only
when `_is_valid_product` accepts it. -/
def validated (product : Product) (base_url : String) : Option Product :=
  if isValidProduct product base_url then some product else none

/-- Final assembly step of `_extract_wix_product`: build the product URL from
slug or id, resolve the image URL, assemble the product with the INR currency
default, and validate. -/
def wixAssemble (kvs : List (String × Json)) (base_url : String)
    (raw_price : Option String) (parsed_price : Option ℚ) (currencyJ : Option Json)
    (image0 : Option String) : Option Product :=
  let pid := firstTruthyJ [jget kvs "id", jget kvs "productId"]
  let slug := firstTruthyJ [jget kvs "slug", jget kvs "urlPart"]
  let product_url : Option String :=
    match slug with
    | some s => some (urljoinM base_url ("/product-page/" ++ pyStrOfJson s))
    | none =>
      match pid with
      | some p => some (urljoinM base_url ("/product/" ++ pyStrOfJson p))
      | none => none
  let image_url : Option String :=
    match image0 with
    | some iu =>
      if iu != "" && !startsWithS iu "http" then some (urljoinM base_url iu)
      else some iu
    | none => none
  validated { title := (jget kvs "name").bind jsonOptStr,
              product_url := product_url,
              image_url := image_url,
              price := parsed_price,
              currency := some ((currencyJ.bind
                (fun v => if v.truthy then jsonOptStr v else none)).getD "INR"),
              raw_price := raw_price,
              rating := none,
              review_count := none,
              brand := (jget kvs "brand").bind jsonOptStr,
              sku := (firstTruthyJ [jget kvs "sku", jget kvs "id",
                jget kvs "productId"]).bind jsonOptStr } base_url

/-- Embedding of `_extract_wix_product`: read price/currency out of
`price`/`priceData` (`wixPriceInfo`), resolve the image (`wixImage`), then
assemble and validate (`wixAssemble`).  Every exception path of the Python
`try` (including `float()` on a non-numeric price and non-dict input) returns
`none`. -/
def extractWixProduct (wixData : Json) (base_url : String) : Option Product :=
  match wixData with
  | Json.obj kvs =>
    match wixPriceInfo kvs with
    | none => none
    | some (raw_price, parsed_price, currencyJ) =>
      match wixImage (firstTruthyJ [jget kvs "media", jget kvs "images"]) with
      | none => none
      | some image0 => wixAssemble kvs base_url raw_price parsed_price currencyJ image0
  | _ => none

/-! ### `_extract_products_from_json` (final.py lines 403–510) -/

/-- Default `MAX_PRODUCTS_PER_PAGE` (env override not modelled). -/
def MAX_PRODUCTS_PER_PAGE : Nat := 50

/-- Wix `products` loop of `_extract_products_from_json`: append each
successfully extracted product and stop once `max_items` is reached. -/
def wixCollect (items : List Json) (base_url : String) (max_items : Nat)
    (acc : List Product) : List Product :=
  match items with
  | [] => acc
  | x :: xs =>
    match extractWixProduct x base_url with
    | some p =>
      let acc2 := acc ++ [p]
      if max_items ≤ acc2.length then acc2 else wixCollect xs base_url max_items acc2
    | none => wixCollect xs base_url max_items acc

/-- The `dict(data['item'])` copy with `setdefault('name', …)` and
`setdefault('url', data.get('url') or inner.get('@id'))` of the ListItem
branch. -/
def listItemInner (kvs innerKvs : List (String × Json)) : List (String × Json) :=
  let inner1 :=
    if hasKey innerKvs "name" then innerKvs
    else innerKvs ++ [("name", (jget kvs "name").getD Json.null)]
  let urlDefault :=
    match firstTruthyJ [jget kvs "url"] with
    | some v => v
    | none => (jget innerKvs "@id").getD Json.null
  if hasKey inner1 "url" then inner1 else inner1 ++ [("url", urlDefault)]

/-- The `image` resolution steps shared by the `@type == 'product'` branch and
the loose-fields branch: a nonempty list is replaced by its head, a dict by its
truthy `url`/`src` entry. -/
def resolveImageVal (image0 : Option Json) : Option Json :=
  let image1 :=
    match image0 with
    | some (Json.arr (x :: _)) => some x
    | o => o
  match image1 with
  | some (Json.obj ikvs) => firstTruthyJ [jget ikvs "url", jget ikvs "src"]
  | o => o

/-- Candidate built by the `data_type == 'product'` (schema.org Product)
branch, already passed through `_is_valid_product` (empty list when invalid). -/
def schemaProductCandidate (kvs : List (String × Json)) (base_url : String) : List Product :=
  let image := resolveImageVal (jget kvs "image")
  let cand0 : Product := {
    title := (firstTruthyJ [jget kvs "name", jget kvs "title"]).bind jsonOptStr,
    product_url :=
      some (urljoinM base_url (jUrlArg (firstTruthyJ [jget kvs "url", jget kvs "@id"]))),
    image_url := some (urljoinM base_url (jUrlArg image)) }
  let offers :=
    match jget kvs "offers" with
    | some (Json.arr (x :: _)) => some x
    | o => o
  let cand1 :=
    match offers with
    | some (Json.obj okvs) =>
      let rp := jStrOrEmpty (firstTruthyJ [jget okvs "price"])
      let pc := parsePrice (some rp)
      { cand0 with
        raw_price := some rp,
        price := pc.1,
        currency :=
          (match pc.2 with
           | some c => some c
           | none => (jget okvs "priceCurrency").bind jsonOptStr) }
    | _ => cand0
  let cand2 :=
    match jget kvs "aggregateRating" with
    | some (Json.obj akvs) =>
      { cand1 with
        rating := parseFloatPy (jget akvs "ratingValue"),
        review_count := parseIntPy (jget akvs "reviewCount") }
    | _ => cand1
  let brandResolved :=
    match jget kvs "brand" with
    | some (Json.obj bkvs) => firstTruthyJ [jget bkvs "name", jget bkvs "brand"]
    | o => o
  let cand3 := { cand2 with
    brand :=
      (match brandResolved with
       | some (Json.str s) => cleanText (some s)
       | _ =>
         match jget kvs "brand" with
         | some (Json.str s) => cleanText (some s)
         | _ => none),
    sku := cleanText ((jget kvs "sku").bind jsonOptStr) }
  if isValidProduct cand3 base_url then [cand3] else []

/-- Synonym keys whose presence makes a dict "look like a product". -/
def productFieldKeys : List String :=
  ["name", "title", "productName", "product_name", "productUrl", "product_url",
   "price", "image", "imageUrl"]

/-- The `has_product_fields` membership test. -/
def hasProductFields (kvs : List (String × Json)) : Bool :=
  productFieldKeys.any (fun k => hasKey kvs k)

/-- Candidate built by the loose-fields branch of
`_extract_products_from_json`, already validated. -/
def looseProductCandidate (kvs : List (String × Json)) (base_url : String) : List Product :=
  let image := resolveImageVal
    (firstTruthyJ [jget kvs "image", jget kvs "imageUrl", jget kvs "image_url"])
  let rp := jStrOrEmpty (firstTruthyJ [jget kvs "price", jget kvs "salePrice"])
  let product : Product := {
    title := (firstTruthyJ [jget kvs "name", jget kvs "title", jget kvs "productName",
                            jget kvs "product_name"]).bind jsonOptStr,
    product_url := some (urljoinM base_url (jUrlArg (firstTruthyJ
      [jget kvs "url", jget kvs "productUrl", jget kvs "product_url"]))),
    image_url := some (urljoinM base_url (jUrlArg image)),
    price := (parsePrice (some rp)).1,
    currency := (firstTruthyJ [jget kvs "currency", jget kvs "priceCurrency"]).bind jsonOptStr,
    raw_price := some rp,
    rating := parseFloatPy (some (Json.str
      (jStrOrEmpty (firstTruthyJ [jget kvs "rating", jget kvs "ratingValue"])))),
    review_count := parseIntPy (some (Json.str
      (jStrOrEmpty (firstTruthyJ [jget kvs "reviewCount", jget kvs "reviewsCount"])))),
    brand := cleanText ((firstTruthyJ [jget kvs "brand", jget kvs "manufacturer"]).bind jsonOptStr),
    sku := cleanText ((firstTruthyJ [jget kvs "sku", jget kvs "productId",
                                     jget kvs "id"]).bind jsonOptStr) }
  if isValidProduct product base_url then [product] else []

/-- Keywords that open a nested container to recursion. -/
def nestKeywords : List String :=
  ["product", "products", "item", "items", "listing", "result", "entries", "hits"]

/-- Worker for `_extract_products_from_json`, structurally recursive on a gas
parameter.  The source guards with `if depth > 5: return products` at entry and
recurses with `depth + 1`, so a call at depth `d` corresponds to
`gas = 6 - d`: zero gas is exactly `depth > 5`, and every recursive call burns
one unit.  The block sequence and the early `return products[:max_items]`
thresholds mirror the source; the loose-fields block returns unsliced, as the
source does. -/
def extractGo (gas : Nat) (data : Json) (base_url : String) (max_items : Nat) : List Product :=
  match gas with
  | 0 => []
  | gas + 1 =>
    match data with
    | Json.arr xs =>
      (xs.foldl (fun acc item =>
          if max_items ≤ acc.length then acc
          else acc ++ extractGo gas item base_url max_items) []).take max_items
    | Json.obj kvs =>
      let p1 :=
        match jget kvs "products" with
        | some (Json.arr wixItems) => wixCollect wixItems base_url max_items []
        | _ => []
      if max_items ≤ p1.length then p1.take max_items
      else
        let data_type := pyToLower (jStrOrEmpty (firstTruthyJ [jget kvs "@type", jget kvs "type"]))
        let p2 := p1 ++
          (match jget kvs "item" with
           | some (Json.obj innerKvs) =>
             if data_type = "listitem" then
               extractGo gas (Json.obj (listItemInner kvs innerKvs)) base_url max_items
             else []
           | _ => [])
        if max_items ≤ p2.length then p2.take max_items
        else
          let p3 := p2 ++
            (if data_type = "product" then schemaProductCandidate kvs base_url else [])
          if max_items ≤ p3.length then p3.take max_items
          else
            let p4 := p3 ++
              (if hasProductFields kvs then looseProductCandidate kvs base_url else [])
            if max_items ≤ p4.length then p4
            else
              let p5 := kvs.foldl (fun acc kv =>
                  if max_items ≤ acc.length then acc
                  else if nestKeywords.any (fun k => containsSub (pyToLower kv.fst) k) then
                    acc ++ extractGo gas kv.snd base_url max_items
                  else acc) p4
              p5.take max_items
    | _ => []

/-- Embedding of `_extract_products_from_json` with its `depth` parameter;
see `extractGo` for the gas correspondence. -/
def extractProductsFromJson (data : Json) (base_url : String) (max_items : Nat)
    (depth : Nat) : List Product :=
  extractGo (6 - depth) data base_url max_items

/-! ### `_dedupe_products` (final.py lines 575–588) -/

/-- Dedup key: the stripped URL when nonempty, else the cleaned title
(`key = (url or '').strip() or (title or '')`). -/
def dedupeKey (product : Product) : String :=
  let k1 := pyStrip (product.product_url.getD "")
  if k1 != "" then k1 else (cleanText product.title).getD ""

/-- Dedup loop of `_dedupe_products` with the running `seen` set as a list. -/
def dedupeAux : List String → List Product → List Product
  | _, [] => []
  | seen, p :: ps =>
    if dedupeKey p = "" then dedupeAux seen ps
    else if dedupeKey p ∈ seen then dedupeAux seen ps
    else p :: dedupeAux (dedupeKey p :: seen) ps

/-- Embedding of `_dedupe_products`: drop empty keys, keep the first occurrence
of each key, preserve order. -/
def dedupeProducts (products : List Product) : List Product := dedupeAux [] products

/-! ### `extract_products_from_sources` (final.py lines 590–624) -/

/-- Default `EXTRACT_PRODUCTS` flag (env override not modelled). -/
def EXTRACT_PRODUCTS : Bool := true

/-- Embedding of `extract_products_from_sources`.  The HTML heuristic extractor
runs through the external DOM library, so its output on the page's HTML is an
oracle argument `htmlProducts`, contributed only when the `html` argument is
truthy; the JSON sources are processed by the embedded extractor. -/
def extractProductsFromSources (html : Option String) (htmlProducts : List Product)
    (ld_sources : List Json) (inline_source : Option Json) (base_url : String)
    (max_items : Nat) : List Product :=
  if !EXTRACT_PRODUCTS then []
  else
    let c1 :=
      match html with
      | some s => if s != "" then htmlProducts else []
      | none => []
    let c2 := ld_sources.foldl
      (fun acc b => acc ++ extractProductsFromJson b base_url max_items 0) []
    let c3 :=
      match inline_source with
      | some j => if j.truthy then extractProductsFromJson j base_url max_items 0 else []
      | none => []
    let candidates := c1 ++ c2 ++ c3
    if candidates.isEmpty then [] else (dedupeProducts candidates).take max_items

/-! ### `_sanitize_text` / `_sanitize_url` (final.py lines 814–834) -/

/-- Embedding of `_sanitize_text`: falsy input gives `None`; otherwise remove
null bytes, replace carriage returns and newlines by spaces, truncate to
`max_length`, strip, and turn an empty result into `None`.  (The non-string
fallback branch of the source is dead here: every value reaching it is a
string.) -/
def sanitizeText (value : Option String) (max_length : Nat) : Option String :=
  match value with
  | none => none
  | some s =>
    if s = "" then none
    else
      let v1 := (s.data.filter (fun c => c != '\x00')).map
        (fun c => if c == '\r' || c == '\n' then ' ' else c)
      let v2 := if max_length < v1.length then v1.take max_length else v1
      let v3 := pyStrip ⟨v2⟩
      if v3 = "" then none else some v3

/-- Embedding of `_sanitize_url`: falsy input gives `None`; otherwise strip,
truncate to 2048, and turn an empty result into `None`. -/
def sanitizeUrl (value : Option String) : Option String :=
  match value with
  | none => none
  | some s =>
    if s = "" then none
    else
      let url := pyStrip s
      let url2 := if 2048 < url.length then ⟨url.data.take 2048⟩ else url
      if url2 = "" then none else some url2

/-! ### Per-record validation of `save_products_to_supabase` (final.py lines 854–935) -/

/-- Python `round(x, 2)` numerator: round `100·q` half-to-even, computed with
integer floor division so the definition evaluates.  (`round` on the exact
decimal value; binary-float representation error is not modelled.) -/
def roundHalfEven100 (q : ℚ) : ℤ :=
  let f := (q.num * 100).fdiv q.den
  let r := q.num * 100 - f * (q.den : ℤ)
  if 2 * r < (q.den : ℤ) then f
  else if (q.den : ℤ) < 2 * r then f + 1
  else if f % 2 = 0 then f else f + 1

/-- Python `round(x, 2)`. -/
def round2 (q : ℚ) : ℚ := mkRat (roundHalfEven100 q) 100

/-- Rating clamp of `save_products_to_supabase`: negatives to 0, values over
100 to 100, the rest rounded to 2 decimals. -/
def sanitizeRating (rating : Option ℚ) : Option ℚ :=
  match rating with
  | none => none
  | some r => if r < 0 then some 0 else if 100 < r then some 100 else some (round2 r)

/-- The price cap 999999999.99. -/
def priceCap : ℚ := mkRat 99999999999 100

/-- Price clamp of `save_products_to_supabase`: negatives become `None`, values
over the cap are capped, the rest rounded to 2 decimals. -/
def sanitizePrice (price : Option ℚ) : Option ℚ :=
  match price with
  | none => none
  | some p => if p < 0 then none else if priceCap < p then some priceCap else some (round2 p)

/-- Review-count clamp of `save_products_to_supabase`: negatives and values
over `2^31 - 1` become `None`.  (The count reaches this code as the integer
produced by `_parse_int`, so `int(float(reviews))` is the identity.) -/
def sanitizeReviews (reviews : Option Int) : Option Int :=
  match reviews with
  | none => none
  | some n => if n < 0 then none else if 2147483647 < n then none else some n

/-- A row of `r_product_data` as assembled by `save_products_to_supabase`. -/
structure DbRecord where
  platform_url : Option String
  product_name : String
  original_price : Option String
  current_price : Option ℚ
  product_url : String
  product_image_url : Option String
  rating : Option ℚ
  reviews : Option Int
  brand : Option String
  product_type_id : Option Int
deriving DecidableEq

/-- Per-product body of the save loop: clamp rating/price/reviews, sanitize the
text and URL fields, and skip the record (`none`) when the name or URL is
missing after sanitization. -/
def sanitizeRecord (product : Product) (platform_url : String)
    (product_type_id : Option Int) : Option DbRecord :=
  let rating := sanitizeRating product.rating
  let price := sanitizePrice product.price
  let reviews := sanitizeReviews product.review_count
  let product_name := sanitizeText product.title 500
  let product_url := sanitizeUrl product.product_url
  let image_url := sanitizeUrl product.image_url
  let original_price := sanitizeText product.raw_price 100
  let brand := sanitizeText product.brand 200
  let platform_url_safe := sanitizeUrl (some platform_url)
  match product_name, product_url with
  | some pn, some pu =>
    some { platform_url := platform_url_safe,
           product_name := pn,
           original_price := original_price,
           current_price := price,
           product_url := pu,
           product_image_url := image_url,
           rating := rating,
           reviews := reviews,
           brand := brand,
           product_type_id := product_type_id }
  | _, _ => none

/-- The records `save_products_to_supabase` hands to the insert layer. -/
def sanitizedRecords (products : List Product) (platform_url : String)
    (product_type_id : Option Int) : List DbRecord :=
  products.filterMap (fun p => sanitizeRecord p platform_url product_type_id)

/-! ### `_insert_product_with_retry` (final.py lines 836–852) -/

/-- Outcome of one raw insert call: a response with or without data, or an
exception with a message. -/
inductive InsertOutcome where
  | ok (hasData : Bool)
  | exn (msg : String)

/-- Error classes distinguished by the handler. -/
inductive ErrClass where
  | dup
  | validation
  | transient
deriving DecidableEq

/-- Message classification of `_insert_product_with_retry`: duplicate/unique
errors, check-constraint/invalid-input errors, everything else. -/
def classifyError (msg : String) : ErrClass :=
  let m := pyToLower msg
  if containsSub m "duplicate" || containsSub m "unique" ||
      containsSub m "violates unique constraint" then ErrClass.dup
  else if containsSub m "violates check constraint" || containsSub m "invalid input" then
    ErrClass.validation
  else ErrClass.transient

/-- One body execution of `_insert_product_with_retry` given that attempt's raw
outcome: `inl b` models `return b` (duplicates return `True`, validation errors
return `False`), `inr msg` models the re-raise that lets tenacity retry. -/
def insertStep : InsertOutcome → Bool ⊕ String
  | .ok hasData => Sum.inl hasData
  | .exn msg =>
    match classifyError msg with
    | .dup => Sum.inl true
    | .validation => Sum.inl false
    | .transient => Sum.inr msg

/-- tenacity `wait_exponential(min=0.5, max=2)` sleep (seconds) after failed
attempt `n`: `2^(n-1)` clamped into `[1/2, 2]`. -/
def waitExp (n : Nat) : ℚ := max (1 / 2 : ℚ) (min ((2 : ℚ) ^ (n - 1)) 2)

/-- tenacity driver with `stop_after_attempt(3)`: run the body on the outcome
of attempt 1, 2, 3 in turn, stopping at the first non-raising execution;
after the third raise the error surfaces.  Returns the result together with
the number of attempts executed. -/
def insertWithRetry (oracle : Nat → InsertOutcome) : (Bool ⊕ String) × Nat :=
  match insertStep (oracle 1) with
  | Sum.inl b => (Sum.inl b, 1)
  | Sum.inr _ =>
    match insertStep (oracle 2) with
    | Sum.inl b => (Sum.inl b, 2)
    | Sum.inr _ =>
      match insertStep (oracle 3) with
      | Sum.inl b => (Sum.inl b, 3)
      | Sum.inr m => (Sum.inr m, 3)

/-! ### `fetch_pending_urls_from_db` (final.py lines 971–1022) -/

/-- A row of `product_page_urls` (timestamps as integer seconds). -/
structure WorkItem where
  id : Nat
  url : String
  processing_status : String
  claimed_by : Option String
  claimed_at : Option Int
deriving DecidableEq

/-- The stale filter `eq("processing_status","processing"), lt("claimed_at",
now - 30 minutes)`; a SQL `NULL` claimed_at never satisfies `lt`. -/
def isStale (now : Int) (item : WorkItem) : Bool :=
  item.processing_status == "processing" &&
    (match item.claimed_at with
     | some t => decide (t < now - 30 * 60)
     | none => false)

/-- The per-row effect of the stale-reset update. -/
def resetStale (now : Int) (item : WorkItem) : WorkItem :=
  if isStale now item then
    { item with processing_status := "pending", claimed_by := none, claimed_at := none }
  else item

/-- The whole stale-reset update of a claim cycle. -/
def resetPhase (now : Int) (db : List WorkItem) : List WorkItem :=
  db.map (resetStale now)

/-- The per-row claim update (`pending → processing` with this worker and
timestamp). -/
def claimItem (now : Int) (worker_id : String) (item : WorkItem) : WorkItem :=
  { item with
    processing_status := "processing",
    claimed_by := some worker_id,
    claimed_at := some now }

/-- Embedding of `fetch_pending_urls_from_db` as a state transformer on the
table: first the stale reset (skipped without aborting when it fails, which the
`resetOk` flag models), then selection of up to `limit` pending rows, then the
per-row claim updates.  Returns the selected rows (the function's return value)
and the updated table. -/
def claimCycle (db : List WorkItem) (now : Int) (worker_id : String) (limit : Nat)
    (resetOk : Bool) : List WorkItem × List WorkItem :=
  let db1 := if resetOk then resetPhase now db else db
  let selected := (db1.filter (fun i => i.processing_status == "pending")).take limit
  let ids := selected.map (fun i => i.id)
  let db2 := db1.map (fun i => if ids.contains i.id then claimItem now worker_id i else i)
  (selected, db2)

/-! ### `process_url` (final.py lines 1189–1356) and its admission gates -/

/-- Terminal stages of a pipeline run. -/
inductive Tier where
  | fastJson
  | fastApi
  | heavy
  | failed
  | exception
deriving DecidableEq

/-- The observable slice of the per-URL `status` record. -/
structure RunStatus where
  stage : Tier
  ok : Bool
  api : Option String
  products_found : Nat
deriving DecidableEq

/-- Inputs of one `process_url` run.  Fields are the outputs of the external
collaborators and of the regex scanners over the fetched page: `fetch` is
`fetch_html` (an exception short-circuits to the `exception` stage), `ld` and
`inline` are `extract_ld_json`/`extract_inline_json` on the static HTML,
`htmlProducts` is `extract_products_from_html` on it, `candidates` is
`find_xhr_candidates`, `apiResult` gives each candidate's `fetch_json_api`
value (`none` for a raised/failed fetch), `render` is the heavy renderer's
`(success, html)` with `none` for a failed render, and the `rendered*` fields
are the same scanners applied to the rendered HTML. -/
structure PipelineEnv where
  fetch : Except String (Nat × String × String)
  ld : List Json
  inline : Option Json
  htmlProducts : List Product
  candidates : List String
  apiResult : String → Option Json
  render : Option (Bool × String)
  renderedLd : List Json
  renderedInline : Option Json
  renderedHtmlProducts : List Product

/-- Truthiness of `if ld or inline:`. -/
def structuredPresent (env : PipelineEnv) : Bool :=
  !env.ld.isEmpty ||
    (match env.inline with
     | some j => j.truthy
     | none => false)

/-- Truthiness of a candidate's fetched JSON (`if api_json:`). -/
def apiTruthy : Option Json → Bool
  | some j => j.truthy
  | none => false

/-- The candidate loop of `process_url`: probe candidates in order; a failed
fetch or a falsy JSON body moves on to the next candidate; the first truthy
JSON body ends the loop with that candidate and its extracted, deduplicated
products. -/
def apiTierScan (candidates : List String) (apiResult : String → Option Json)
    (final_url : String) : Option (String × List Product) :=
  match candidates with
  | [] => none
  | c :: cs =>
    match apiResult c with
    | some j =>
      if j.truthy then
        some (c, dedupeProducts (extractProductsFromJson j final_url MAX_PRODUCTS_PER_PAGE 0))
      else apiTierScan cs apiResult final_url
    | none => apiTierScan cs apiResult final_url

/-- Embedding of the tier state machine of `process_url`: structured data found
on the static page ends at `fast-json`; otherwise the first candidate with a
truthy JSON body ends at `fast-api`; otherwise the heavy render runs and ends
at `heavy` when it succeeds with more than 1500 bytes, else `failed`; a fetch
exception ends at `exception`.  `ok` is `products_found > 0` for the three
content tiers. -/
def processUrlModel (env : PipelineEnv) : RunStatus :=
  match env.fetch with
  | Except.error _ => { stage := Tier.exception, ok := false, api := none, products_found := 0 }
  | Except.ok (_st, html, final_url) =>
    if structuredPresent env then
      let products := extractProductsFromSources (some html) env.htmlProducts env.ld
        env.inline final_url MAX_PRODUCTS_PER_PAGE
      { stage := Tier.fastJson, ok := !products.isEmpty, api := none,
        products_found := products.length }
    else
      match apiTierScan env.candidates env.apiResult final_url with
      | some (c, products) =>
        { stage := Tier.fastApi, ok := !products.isEmpty, api := some c,
          products_found := products.length }
      | none =>
        match env.render with
        | some (succ, rhtml) =>
          if succ && decide (1500 < rhtml.length) then
            let products := extractProductsFromSources (some rhtml) env.renderedHtmlProducts
              env.renderedLd env.renderedInline final_url MAX_PRODUCTS_PER_PAGE
            { stage := Tier.heavy, ok := !products.isEmpty, api := none,
              products_found := products.length }
          else { stage := Tier.failed, ok := false, api := none, products_found := 0 }
        | none => { stage := Tier.failed, ok := false, api := none, products_found := 0 }

/-- Gate events of one `process_url` run. -/
inductive GateEvent where
  | acqDomain (d : String)
  | relDomain (d : String)
  | acqGlobal
  | relGlobal
  | acqHeavy
  | relHeavy
  | renderCall
deriving DecidableEq

/-- Trace of `heavy_render`: the heavy semaphore is acquired, the render call
runs, the semaphore is released (the `async with heavy_sem:` block spans
exactly the render). -/
def heavyRenderTrace : List GateEvent :=
  [GateEvent.acqHeavy, GateEvent.renderCall, GateEvent.relHeavy]

/-- Gate events produced inside the two outer `async with` blocks of
`process_url`: only the path that reaches the heavy tier touches the heavy
gate, via `heavy_render`. -/
def innerTrace (env : PipelineEnv) : List GateEvent :=
  match env.fetch with
  | Except.error _ => []
  | Except.ok (_st, _html, final_url) =>
    if structuredPresent env then []
    else
      match apiTierScan env.candidates env.apiResult final_url with
      | some _ => []
      | none => heavyRenderTrace

/-- Full gate trace of one `process_url` run: the source nests
`async with domain_locks[domain]:` outside `async with global_sem:`, so the
per-domain gate is acquired first and released last. -/
def processUrlTrace (env : PipelineEnv) (domain : String) : List GateEvent :=
  GateEvent.acqDomain domain :: GateEvent.acqGlobal ::
    (innerTrace env ++ [GateEvent.relGlobal, GateEvent.relDomain domain])

/-! ## Shared lemmas -/

/-- A `mkRat` over 100 is the corresponding division. -/
theorem mkRat_hundred_eq (k : ℤ) : mkRat k 100 = (k : ℚ) / 100 := by
  rw [Rat.mkRat_eq_divInt, Rat.divInt_eq_div]
  norm_num

/-! ## C4: `_parse_price` examples and currency priority -/

/-- C4: `_parse_price` maps "₹1,299.00" to (1299.00, INR), "$19.99" to
(19.99, USD) and "Free" to (None, None); currencies are matched in the
fixed priority order INR, USD, EUR, GBP, so the ambiguous "$5 inr" resolves
deterministically to INR, and the unparsable "rs (price unavailable)" still
reports the detected INR with a `none` magnitude. -/
theorem c4_parse_price :
    parsePrice (some "₹1,299.00") = (some 1299, some "INR")
  ∧ parsePrice (some "$19.99") = (some ((1999 : ℚ) / 100), some "USD")
  ∧ parsePrice (some "Free") = (none, none)
  ∧ parsePrice (some "$5 inr") = (some 5, some "INR")
  ∧ parsePrice (some "rs (price unavailable)") = (none, some "INR") := by
  have h : (1999 : ℚ) / 100 = mkRat 1999 100 := (mkRat_hundred_eq 1999).symm
  refine ⟨by decide, ?_, by decide, by decide, by decide⟩
  rw [h]
  decide

/-! ## C2: validity of `{url: "/x", title: "A", price: 10}` -/

/-- C2 counterexample: `_is_valid_product` REJECTS the candidate
`{url: "/x", title: "A", price: 10}` (shown here at the base URL
"https://example.com", refuting the claim's "for every base URL … accepts"):
the single-character title falls to the minimum-length rule. -/
theorem c2_counterexample :
    isValidProduct { product_url := some "/x", title := some "A", price := some 10 }
      "https://example.com" = false := by decide

/-- C2 amended: for every base URL the price+title conjunction does override
the path-shape check, but only when the title has at least 2 characters:
`{url: "/x", title: "AB", price: 10}` is valid, the same candidate with the
single-character title "A" is rejected by the title-length rule, and
`{url: "/x"}` with neither title nor price is rejected. -/
theorem c2_amended_validity (base_url : String) :
    isValidProduct { product_url := some "/x", title := some "AB", price := some 10 }
      base_url = true
  ∧ isValidProduct { product_url := some "/x", title := some "A", price := some 10 }
      base_url = false
  ∧ isValidProduct { product_url := some "/x" } base_url = false :=
  ⟨rfl, rfl, rfl⟩

/-! ## C6: the depth-5 bound of `_extract_products_from_json` -/

/-- A product-shaped JSON object used to exhibit the depth boundary. -/
def sampleProductJson : Json :=
  Json.obj [("name", Json.str "Blue Shirt"), ("url", Json.str "/p/blue-shirt"),
            ("price", Json.str "19.99")]

/-- Wrap a JSON value in `k` singleton arrays. -/
def nestJson : Nat → Json → Json
  | 0, j => j
  | k + 1, j => Json.arr [nestJson k j]

/-- C6: every call of the JSON product recursion at depth greater than 5
returns no products (and the traversal is a total function, so it terminates on
every input); concretely, a valid product wrapped in six array levels yields
nothing from a top-level call while the same product under five levels is
found. -/
theorem c6_depth_bound :
    (∀ (data : Json) (base_url : String) (max_items depth : Nat), 5 < depth →
        extractProductsFromJson data base_url max_items depth = [])
  ∧ extractProductsFromJson (nestJson 6 sampleProductJson) "https://ex.com" 50 0 = []
  ∧ extractProductsFromJson (nestJson 5 sampleProductJson) "https://ex.com" 50 0 ≠ [] := by
  refine ⟨?_, by decide, by decide⟩
  intro data base_url max_items depth h
  unfold extractProductsFromJson
  have h0 : 6 - depth = 0 := by omega
  rw [h0]
  rfl

/-- C6 witness: the depth bound applied at depth 6 on a concrete value. -/
theorem c6_depth_bound_witness :
    5 < 6 ∧ extractProductsFromJson sampleProductJson "https://ex.com" 50 6 = [] :=
  ⟨by decide, c6_depth_bound.1 sampleProductJson "https://ex.com" 50 6 (by decide)⟩

/-! ## C7: idempotence of `_dedupe_products` -/

/-- The dedup loop started from any `seen` set is idempotent: items it keeps
have keys that are nonempty and outside `seen`, so a second pass keeps them
all. -/
theorem dedupeAux_idem (l : List Product) :
    ∀ seen, dedupeAux seen (dedupeAux seen l) = dedupeAux seen l := by
  induction l with
  | nil => intro seen; rfl
  | cons p ps ih =>
    intro seen
    by_cases h1 : dedupeKey p = ""
    · simp [dedupeAux, h1, ih seen]
    · by_cases h2 : dedupeKey p ∈ seen
      · simp [dedupeAux, h1, h2, ih seen]
      · simp [dedupeAux, h1, h2, ih (dedupeKey p :: seen)]

/-- C7: `_dedupe_products` is idempotent — deduping its own output returns that
output unchanged. -/
theorem c7_dedupe_idempotent (products : List Product) :
    dedupeProducts (dedupeProducts products) = dedupeProducts products :=
  dedupeAux_idem products []

/-! ## C10: the INR default of `_extract_wix_product` -/

/-- The currency entry `_extract_wix_product` reads: the `currency` key of the
dict selected by `price or priceData` (absent when the price data is not a
dict). -/
def wixPriceCurrencyField (kvs : List (String × Json)) : Option Json :=
  match firstTruthyJ [jget kvs "price", jget kvs "priceData"] with
  | some (Json.obj pkvs) => jget pkvs "currency"
  | _ => none

/-- Unwrapping the validity gate: a returned product is the assembled one. -/
theorem validated_eq (product : Product) (base_url : String) (p : Product)
    (h : validated product base_url = some p) : p = product := by
  unfold validated at h
  split at h
  · exact (Option.some.inj h).symm
  · exact absurd h (by simp)

/-- The currency component reported by the price step is exactly the currency
entry of the price data. -/
theorem wixPriceInfo_currency (kvs : List (String × Json))
    (rp : Option String) (pp : Option ℚ) (cj : Option Json)
    (h : wixPriceInfo kvs = some (rp, pp, cj)) :
    cj = wixPriceCurrencyField kvs := by
  unfold wixPriceInfo at h
  unfold wixPriceCurrencyField
  cases hS : firstTruthyJ [jget kvs "price", jget kvs "priceData"] with
  | none =>
    rw [hS] at h
    simp only [Option.some.injEq, Prod.mk.injEq] at h
    exact h.2.2.symm
  | some j =>
    cases j with
    | obj pkvs =>
      rw [hS] at h
      dsimp only at h
      cases hP : firstTruthyJ [jget pkvs "price"] with
      | none =>
        rw [hP] at h
        simp only [Option.some.injEq, Prod.mk.injEq] at h
        exact h.2.2.symm
      | some v =>
        rw [hP] at h
        dsimp only at h
        cases hF : pyFloatOfJson v with
        | none => rw [hF] at h; simp at h
        | some q =>
          rw [hF] at h
          simp only [Option.some.injEq, Prod.mk.injEq] at h
          exact h.2.2.symm
    | num q =>
      rw [hS] at h
      simp only [Option.some.injEq, Prod.mk.injEq] at h
      exact h.2.2.symm
    | null =>
      rw [hS] at h
      simp only [Option.some.injEq, Prod.mk.injEq] at h
      exact h.2.2.symm
    | bool b =>
      rw [hS] at h
      simp only [Option.some.injEq, Prod.mk.injEq] at h
      exact h.2.2.symm
    | str s =>
      rw [hS] at h
      simp only [Option.some.injEq, Prod.mk.injEq] at h
      exact h.2.2.symm
    | arr xs =>
      rw [hS] at h
      simp only [Option.some.injEq, Prod.mk.injEq] at h
      exact h.2.2.symm

/-- Every product the assembly step returns carries the price data's currency
entry when truthy, and "INR" otherwise. -/
theorem wixAssemble_currency (kvs : List (String × Json)) (base_url : String)
    (rp : Option String) (pp : Option ℚ) (cj : Option Json) (img : Option String)
    (p : Product) (h : wixAssemble kvs base_url rp pp cj img = some p) :
    p.currency =
      some ((cj.bind (fun v => if v.truthy then jsonOptStr v else none)).getD "INR") := by
  unfold wixAssemble at h
  rw [validated_eq _ _ _ h]

/-- Every product `_extract_wix_product` returns carries the currency entry of
its price data when truthy, and "INR" otherwise. -/
theorem extractWixProduct_currency (kvs : List (String × Json)) (base_url : String)
    (p : Product) (hp : extractWixProduct (Json.obj kvs) base_url = some p) :
    p.currency = some (((wixPriceCurrencyField kvs).bind
      (fun v => if v.truthy then jsonOptStr v else none)).getD "INR") := by
  unfold extractWixProduct at hp
  dsimp only at hp
  cases hinfo : wixPriceInfo kvs with
  | none => rw [hinfo] at hp; exact absurd hp (by simp)
  | some t =>
    obtain ⟨rp, pp, cj⟩ := t
    rw [hinfo] at hp
    dsimp only at hp
    cases himg : wixImage (firstTruthyJ [jget kvs "media", jget kvs "images"]) with
    | none => rw [himg] at hp; exact absurd hp (by simp)
    | some image0 =>
      rw [himg] at hp
      dsimp only at hp
      rw [wixAssemble_currency kvs base_url rp pp cj image0 p hp]
      rw [wixPriceInfo_currency kvs rp pp cj hinfo]

/-- C10: whenever a Wix product's price data carries no currency entry, any
product the extractor returns is assigned the currency "INR". -/
theorem c10_wix_inr_default (kvs : List (String × Json)) (base_url : String) (p : Product)
    (hcur : wixPriceCurrencyField kvs = none)
    (hp : extractWixProduct (Json.obj kvs) base_url = some p) :
    p.currency = some "INR" := by
  rw [extractWixProduct_currency kvs base_url p hp, hcur]
  rfl

/-- A Wix API product object whose price data has no currency entry. -/
def wixSampleKvs : List (String × Json) :=
  [("name", Json.str "Blue Shirt"), ("slug", Json.str "blue-shirt"),
   ("priceData", Json.obj [("price", Json.num (mkRat 1999 100))])]

/-- C10 witness: the INR default observed on a concrete Wix object. -/
theorem c10_wix_inr_default_witness :
    wixPriceCurrencyField wixSampleKvs = none
  ∧ ∃ p, extractWixProduct (Json.obj wixSampleKvs) "https://shop.example.com" = some p
      ∧ p.currency = some "INR" := by
  obtain ⟨p, hp⟩ : ∃ p,
      extractWixProduct (Json.obj wixSampleKvs) "https://shop.example.com" = some p :=
    ⟨_, rfl⟩
  exact ⟨rfl, p, hp,
    c10_wix_inr_default wixSampleKvs "https://shop.example.com" p rfl hp⟩

/-- C3: in every claim cycle the stale-reset step resets exactly the processing
items claimed more than 30 minutes ago, clearing worker and timestamp; an item
claimed less than 30 minutes ago is left untouched; and when the reset step
fails, the selection of pending items still proceeds on the unreset table
(the failure is logged and does not abort the claim). -/
theorem c3_claim_staleness (db : List WorkItem) (now : Int) (worker_id : String)
    (limit : Nat) (item : WorkItem) :
    (∀ t, item.processing_status = "processing" → item.claimed_at = some t →
        t < now - 30 * 60 →
        resetStale now item =
          { item with processing_status := "pending", claimed_by := none, claimed_at := none })
  ∧ (∀ t, item.claimed_at = some t → now - 30 * 60 < t → resetStale now item = item)
  ∧ (claimCycle db now worker_id limit false).1 =
      (db.filter (fun i => i.processing_status == "pending")).take limit
  ∧ (claimCycle db now worker_id limit true).1 =
      ((resetPhase now db).filter (fun i => i.processing_status == "pending")).take limit := by
  refine ⟨?_, ?_, rfl, rfl⟩
  · intro t h1 h2 h3
    have hb : isStale now item = true := by
      unfold isStale
      rw [h1, h2]
      simp only [beq_self_eq_true, Bool.true_and, decide_eq_true_eq]
      omega
    unfold resetStale
    rw [hb]
    rfl
  · intro t h2 h3
    have hn : ¬ (t < now - 30 * 60) := by omega
    have hb : isStale now item = false := by
      unfold isStale
      rw [h2]
      dsimp only
      rw [decide_eq_false hn]
      exact Bool.and_false _
    unfold resetStale
    rw [hb]
    rfl

/-- A work item claimed 5000 seconds into the example clock. -/
def itemStale : WorkItem :=
  { id := 1, url := "u", processing_status := "processing", claimed_by := some "w", claimed_at := some 5000 }

/-- A work item claimed 9000 seconds into the example clock. -/
def itemFresh : WorkItem :=
  { id := 2, url := "v", processing_status := "processing", claimed_by := some "w", claimed_at := some 9000 }

/-- C3 witness: with `now = 10000` s, the item claimed at 5000 s (50 s over the
1800 s window) is reset while the one claimed at 9000 s is untouched. -/
theorem c3_claim_staleness_witness :
    resetStale 10000 itemStale
      = { id := 1, url := "u", processing_status := "pending", claimed_by := none, claimed_at := none }
  ∧ resetStale 10000 itemFresh = itemFresh :=
  ⟨(c3_claim_staleness [] 10000 "w" 0 itemStale).1 5000 rfl rfl (by decide),
   (c3_claim_staleness [] 10000 "w" 0 itemFresh).2.1 9000 rfl (by decide)⟩

/-- Raising executions of the retry body are exactly the transient-classified
exceptions. -/
theorem insertStep_inr (o : InsertOutcome) (msg : String)
    (h : insertStep o = Sum.inr msg) :
    o = InsertOutcome.exn msg ∧ classifyError msg = ErrClass.transient := by
  cases o with
  | ok b => exact absurd h (by simp [insertStep])
  | exn m =>
    unfold insertStep at h
    dsimp only at h
    cases hc : classifyError m with
    | dup => rw [hc] at h; simp at h
    | validation => rw [hc] at h; simp at h
    | transient =>
      rw [hc] at h
      dsimp only at h
      injection h with h
      subst h
      exact ⟨rfl, hc⟩

/-- C8: `_insert_product_with_retry` executes at most 3 attempts; a first
attempt failing with a duplicate/unique-constraint message returns success
with no retry; one failing with a check-constraint/invalid-input message
returns a permanent skip with no retry; every attempt that was followed by a
retry had failed with a transient-classified error; and the exponential
backoff sleeps 1 s then 2 s, nondecreasing within the `[1/2, 2]` clamp. -/
theorem c8_insert_retry (oracle : Nat → InsertOutcome) :
    (1 ≤ (insertWithRetry oracle).2 ∧ (insertWithRetry oracle).2 ≤ 3)
  ∧ (∀ msg, oracle 1 = InsertOutcome.exn msg → classifyError msg = ErrClass.dup →
        insertWithRetry oracle = (Sum.inl true, 1))
  ∧ (∀ msg, oracle 1 = InsertOutcome.exn msg → classifyError msg = ErrClass.validation →
        insertWithRetry oracle = (Sum.inl false, 1))
  ∧ (∀ k, 1 ≤ k → k < (insertWithRetry oracle).2 →
        ∃ msg, oracle k = InsertOutcome.exn msg ∧ classifyError msg = ErrClass.transient)
  ∧ (waitExp 1 = 1 ∧ waitExp 2 = 2 ∧ ∀ n, waitExp n ≤ waitExp (n + 1)) := by
  refine ⟨?_, ?_, ?_, ?_, ?_, ?_, ?_⟩
  · unfold insertWithRetry
    cases insertStep (oracle 1) with
    | inl b => exact ⟨by norm_num, by norm_num⟩
    | inr m1 =>
      cases insertStep (oracle 2) with
      | inl b => exact ⟨by norm_num, by norm_num⟩
      | inr m2 =>
        cases insertStep (oracle 3) with
        | inl b => exact ⟨by norm_num, by norm_num⟩
        | inr m3 => exact ⟨by norm_num, by norm_num⟩
  · intro msg h hc
    simp [insertWithRetry, h, insertStep, hc]
  · intro msg h hc
    simp [insertWithRetry, h, insertStep, hc]
  · intro k hk1 hk2
    unfold insertWithRetry at hk2
    cases h1 : insertStep (oracle 1) with
    | inl b => rw [h1] at hk2; dsimp only at hk2; omega
    | inr m1 =>
      rw [h1] at hk2
      dsimp only at hk2
      cases h2 : insertStep (oracle 2) with
      | inl b =>
        rw [h2] at hk2
        dsimp only at hk2
        have hk : k = 1 := by omega
        subst hk
        exact ⟨m1, insertStep_inr _ _ h1⟩
      | inr m2 =>
        rw [h2] at hk2
        dsimp only at hk2
        cases h3 : insertStep (oracle 3) with
        | inl b =>
          rw [h3] at hk2
          dsimp only at hk2
          have hk : k = 1 ∨ k = 2 := by omega
          rcases hk with hk | hk <;> subst hk
          · exact ⟨m1, insertStep_inr _ _ h1⟩
          · exact ⟨m2, insertStep_inr _ _ h2⟩
        | inr m3 =>
          rw [h3] at hk2
          dsimp only at hk2
          have hk : k = 1 ∨ k = 2 := by omega
          rcases hk with hk | hk <;> subst hk
          · exact ⟨m1, insertStep_inr _ _ h1⟩
          · exact ⟨m2, insertStep_inr _ _ h2⟩
  · unfold waitExp
    norm_num
  · unfold waitExp
    norm_num
  · intro n
    unfold waitExp
    have hpow : (2 : ℚ) ^ (n - 1) ≤ (2 : ℚ) ^ (n + 1 - 1) := by
      apply pow_le_pow_right₀ (by norm_num)
      omega
    exact max_le_max le_rfl (min_le_min hpow le_rfl)

/-- An insert whose first attempt hits a unique-constraint violation. -/
def oracleC8 : Nat → InsertOutcome :=
  fun n => if n = 1 then InsertOutcome.exn "duplicate key value violates unique constraint"
           else InsertOutcome.ok true

/-- C8 witness: the duplicate-is-success rule observed on a concrete run. -/
theorem c8_insert_retry_witness :
    insertWithRetry oracleC8 = (Sum.inl true, 1) ∧ (insertWithRetry oracleC8).2 ≤ 3 :=
  ⟨(c8_insert_retry oracleC8).2.1 _ rfl (by decide), (c8_insert_retry oracleC8).1.2⟩

/-- The candidate loop returns a hit exactly when some candidate has a truthy
JSON body. -/
theorem apiTierScan_isSome (cs : List String) (f : String → Option Json) (u : String) :
    (apiTierScan cs f u).isSome = cs.any (fun c => apiTruthy (f c)) := by
  induction cs with
  | nil => rfl
  | cons c cs ih =>
    cases hfc : f c with
    | none => simp [apiTierScan, hfc, apiTruthy, ih]
    | some j =>
      cases hj : j.truthy with
      | true => simp [apiTierScan, hfc, apiTruthy, hj]
      | false => simp [apiTierScan, hfc, apiTruthy, hj, ih]

/-- With no truthy candidate the loop falls through. -/
theorem apiTierScan_none (cs : List String) (f : String → Option Json) (u : String)
    (hall : ∀ c ∈ cs, apiTruthy (f c) = false) : apiTierScan cs f u = none := by
  induction cs with
  | nil => rfl
  | cons c cs ih =>
    have hc : apiTruthy (f c) = false := hall c (by simp)
    have hcs : ∀ x ∈ cs, apiTruthy (f x) = false := fun x hx => hall x (by simp [hx])
    cases hfc : f c with
    | none => simpa [apiTierScan, hfc] using ih hcs
    | some j =>
      have hj : j.truthy = false := by rw [hfc] at hc; exact hc
      simp [apiTierScan, hfc, hj, ih hcs]

/-- Candidates without truthy JSON are skipped over. -/
theorem apiTierScan_skip (pre cs : List String) (f : String → Option Json) (u : String)
    (hpre : ∀ d ∈ pre, apiTruthy (f d) = false) :
    apiTierScan (pre ++ cs) f u = apiTierScan cs f u := by
  induction pre with
  | nil => rfl
  | cons d ds ih =>
    have hd : apiTruthy (f d) = false := hpre d (by simp)
    have hds : ∀ x ∈ ds, apiTruthy (f x) = false := fun x hx => hpre x (by simp [hx])
    cases hfd : f d with
    | none => simpa [apiTierScan, hfd] using ih hds
    | some j =>
      have hj : j.truthy = false := by rw [hfd] at hd; exact hd
      simpa [apiTierScan, hfd, hj] using ih hds

/-- The first candidate with a truthy JSON body ends the loop, regardless of
how many products it yields. -/
theorem apiTierScan_cons_truthy (c : String) (cs : List String) (f : String → Option Json)
    (u : String) (j : Json) (hc : f c = some j) (hj : j.truthy = true) :
    apiTierScan (c :: cs) f u =
      some (c, dedupeProducts (extractProductsFromJson j u MAX_PRODUCTS_PER_PAGE 0)) := by
  simp [apiTierScan, hc, hj]

/-- Reduction of the pipeline model past the fast-json tier when the static
page has no structured data. -/
theorem processUrlModel_api (env : PipelineEnv) (st : Nat) (html fu : String)
    (hf : env.fetch = Except.ok (st, html, fu)) (hsp : structuredPresent env = false) :
    processUrlModel env =
      (match apiTierScan env.candidates env.apiResult fu with
       | some (c, products) =>
         { stage := Tier.fastApi, ok := !products.isEmpty, api := some c,
           products_found := products.length }
       | none =>
         match env.render with
         | some (succ, rhtml) =>
           if succ && decide (1500 < rhtml.length) then
             let products := extractProductsFromSources (some rhtml) env.renderedHtmlProducts
               env.renderedLd env.renderedInline fu MAX_PRODUCTS_PER_PAGE
             { stage := Tier.heavy, ok := !products.isEmpty, api := none,
               products_found := products.length }
           else { stage := Tier.failed, ok := false, api := none, products_found := 0 }
         | none => { stage := Tier.failed, ok := false, api := none, products_found := 0 }) := by
  unfold processUrlModel
  rw [hf]
  dsimp only
  rw [hsp]
  rfl

/-- C1 amended: with no structured data on the static page, the pipeline ends
at the fast-api tier exactly when some candidate's fetch yields a truthy JSON
body; it stops at the FIRST such candidate even when that candidate yields
zero valid products (then with `ok = false`); and the heavy-render tier is
attempted only when every candidate's fetch fails or yields a falsy body. -/
theorem c1_amended_api_tier (env : PipelineEnv) (h1 : env.ld = []) (h2 : env.inline = none)
    (st : Nat) (html fu : String) (hf : env.fetch = Except.ok (st, html, fu)) :
    ((processUrlModel env).stage = Tier.fastApi ↔
        env.candidates.any (fun c => apiTruthy (env.apiResult c)) = true)
  ∧ (∀ pre c post j, env.candidates = pre ++ c :: post →
        (∀ d ∈ pre, apiTruthy (env.apiResult d) = false) →
        env.apiResult c = some j → j.truthy = true →
        (processUrlModel env).stage = Tier.fastApi
      ∧ (processUrlModel env).api = some c
      ∧ (processUrlModel env).ok =
          !(dedupeProducts (extractProductsFromJson j fu MAX_PRODUCTS_PER_PAGE 0)).isEmpty)
  ∧ ((∀ c ∈ env.candidates, apiTruthy (env.apiResult c) = false) →
        (processUrlModel env).stage = Tier.heavy ∨ (processUrlModel env).stage = Tier.failed) := by
  have hsp : structuredPresent env = false := by
    unfold structuredPresent
    rw [h1, h2]
    rfl
  have hm := processUrlModel_api env st html fu hf hsp
  refine ⟨?_, ?_, ?_⟩
  · rw [hm, ← apiTierScan_isSome env.candidates env.apiResult fu]
    cases hscan : apiTierScan env.candidates env.apiResult fu with
    | some t => obtain ⟨c, products⟩ := t; simp
    | none =>
      cases hr : env.render with
      | none => simp
      | some t =>
        obtain ⟨succ, rhtml⟩ := t
        by_cases hcond : (succ && decide (1500 < rhtml.length)) = true
        · simp [hcond]
        · simp [hcond]
  · intro pre c post j hcand hpre hc hj
    rw [hm, hcand, apiTierScan_skip pre (c :: post) env.apiResult fu hpre,
        apiTierScan_cons_truthy c post env.apiResult fu j hc hj]
    exact ⟨rfl, rfl, rfl⟩
  · intro hall
    rw [hm, apiTierScan_none env.candidates env.apiResult fu hall]
    cases hr : env.render with
    | none => right; rfl
    | some t =>
      obtain ⟨succ, rhtml⟩ := t
      by_cases hcond : (succ && decide (1500 < rhtml.length)) = true
      · left; simp [hcond]
      · right; simp [hcond]

/-- A URL whose static page has no structured data, one API candidate whose
fetch parses as the truthy JSON `{"foo": 1}` with zero valid products, and a
renderer that would succeed. -/
def envC1 : PipelineEnv :=
  { fetch := Except.ok (200, "<html><body></body></html>", "https://shop.example.com/search"),
    ld := [],
    inline := none,
    htmlProducts := [],
    candidates := ["https://shop.example.com/api/list"],
    apiResult := fun _ => some (Json.obj [("foo", Json.num 1)]),
    render := some (true, "x"),
    renderedLd := [],
    renderedInline := none,
    renderedHtmlProducts := [] }

/-- C1 counterexample: on `envC1` the pipeline terminates at the fast-api tier
with zero products and `ok = false` and does NOT go on to the heavy-render
tier, refuting the claim that a candidate with JSON but no valid products does
not terminate the pipeline. -/
theorem c1_counterexample :
    (processUrlModel envC1).stage = Tier.fastApi
  ∧ (processUrlModel envC1).ok = false
  ∧ (processUrlModel envC1).products_found = 0
  ∧ ¬ ((processUrlModel envC1).stage = Tier.heavy ∨ (processUrlModel envC1).stage = Tier.failed) := by
  refine ⟨by decide, by decide, by decide, by decide⟩

/-- Two candidates: the first fails to fetch, the second yields truthy JSON. -/
def envC1W : PipelineEnv :=
  { fetch := Except.ok (200, "<html></html>", "https://e.com"),
    ld := [],
    inline := none,
    htmlProducts := [],
    candidates := ["https://e.com/a", "https://e.com/api"],
    apiResult := fun c => if c = "https://e.com/api" then some (Json.obj [("foo", Json.num 1)]) else none,
    render := some (true, "x"),
    renderedLd := [],
    renderedInline := none,
    renderedHtmlProducts := [] }

/-- C1 witness: the amended behaviour observed on a concrete environment. -/
theorem c1_amended_api_tier_witness :
    (processUrlModel envC1W).stage = Tier.fastApi
  ∧ (processUrlModel envC1W).api = some "https://e.com/api"
  ∧ (processUrlModel envC1W).ok = false := by
  have h := (c1_amended_api_tier envC1W rfl rfl 200 "<html></html>" "https://e.com" rfl).2.1
    ["https://e.com/a"] "https://e.com/api" [] (Json.obj [("foo", Json.num 1)])
    rfl (by decide) rfl (by decide)
  refine ⟨h.1, h.2.1, ?_⟩
  rw [h.2.2]
  decide

/-- An environment that reaches the heavy tier (no structured data, no API
candidates). -/
def envC9 : PipelineEnv :=
  { fetch := Except.ok (200, "<p></p>", "https://s.example/catalog"),
    ld := [],
    inline := none,
    htmlProducts := [],
    candidates := [],
    apiResult := fun _ => none,
    render := some (true, "x"),
    renderedLd := [],
    renderedInline := none,
    renderedHtmlProducts := [] }

/-- C9 counterexample: in the gate trace of a run, the per-domain gate is
acquired strictly BEFORE the global gate, refuting the claimed order "global
gate first, then that URL's per-domain gate". -/
theorem c9_counterexample :
    List.indexOf (GateEvent.acqDomain "s.example") (processUrlTrace envC9 "s.example") <
      List.indexOf GateEvent.acqGlobal (processUrlTrace envC9 "s.example") := by decide

/-- C9 amended: the gates are acquired in the order per-domain first, then
global, with the heavy gate touched only inside them; the inner trace is
either empty or exactly acquire-heavy/render/release-heavy (so the heavy gate
is held only for the render call), and the heavy gate is used exactly when the
run ends at the heavy or failed stage; global and per-domain gates are
released at the end of the run, in reverse order. -/
theorem c9_amended_gate_order (env : PipelineEnv) (domain : String) :
    processUrlTrace env domain =
      GateEvent.acqDomain domain :: GateEvent.acqGlobal ::
        (innerTrace env ++ [GateEvent.relGlobal, GateEvent.relDomain domain])
  ∧ (innerTrace env = [] ∨
      innerTrace env = [GateEvent.acqHeavy, GateEvent.renderCall, GateEvent.relHeavy])
  ∧ (innerTrace env = heavyRenderTrace ↔
      ((processUrlModel env).stage = Tier.heavy ∨ (processUrlModel env).stage = Tier.failed)) := by
  refine ⟨rfl, ?_, ?_⟩
  · unfold innerTrace
    cases env.fetch with
    | error e => left; rfl
    | ok t =>
      obtain ⟨st, html, fu⟩ := t
      dsimp only
      cases hsp : structuredPresent env with
      | true => left; simp
      | false =>
        simp only [Bool.false_eq_true, if_false]
        cases hscan : apiTierScan env.candidates env.apiResult fu with
        | some t2 => left; rfl
        | none => right; rfl
  · unfold innerTrace processUrlModel
    cases hf : env.fetch with
    | error e => simp [heavyRenderTrace]
    | ok t =>
      obtain ⟨st, html, fu⟩ := t
      dsimp only
      cases hsp : structuredPresent env with
      | true => simp [heavyRenderTrace]
      | false =>
        simp only [Bool.false_eq_true, if_false]
        cases hscan : apiTierScan env.candidates env.apiResult fu with
        | some t2 =>
          obtain ⟨c, products⟩ := t2
          simp [heavyRenderTrace]
        | none =>
          cases hr : env.render with
          | none => simp [heavyRenderTrace]
          | some t3 =>
            obtain ⟨succ, rhtml⟩ := t3
            by_cases hcond : (succ && decide (1500 < rhtml.length)) = true
            · simp [hcond, heavyRenderTrace]
            · simp [hcond, heavyRenderTrace]

/-- Floor-division bracket: `b * (a.fdiv b) ≤ a < b * (a.fdiv b) + b` for `b > 0`. -/
theorem fdiv_bounds (a : ℤ) {b : ℤ} (hb : 0 < b) :
    b * (a.fdiv b) ≤ a ∧ a < b * (a.fdiv b) + b := by
  have h := Int.fdiv_add_fmod a b
  have h1 := Int.fmod_nonneg' a hb
  have h2 := Int.fmod_lt_of_pos a hb
  constructor <;> linarith

/-- Rounding a nonnegative value to 2 decimals stays nonnegative. -/
theorem roundHalfEven100_nonneg {q : ℚ} (hq : 0 ≤ q) : 0 ≤ roundHalfEven100 q := by
  have hnum : 0 ≤ q.num := Rat.num_nonneg.mpr hq
  have hf : 0 ≤ (q.num * 100).fdiv (q.den : ℤ) :=
    Int.fdiv_nonneg (by positivity) (by positivity)
  unfold roundHalfEven100
  dsimp only
  split
  · exact hf
  · split
    · omega
    · split
      · exact hf
      · omega

/-- Rounding respects an upper bound of the form `m/100`. -/
theorem roundHalfEven100_le {q : ℚ} {m : ℤ} (h : q.num * 100 ≤ m * (q.den : ℤ)) :
    roundHalfEven100 q ≤ m := by
  have hb : (0 : ℤ) < (q.den : ℤ) := by exact_mod_cast q.den_pos
  obtain ⟨hlo, hhi⟩ := fdiv_bounds (q.num * 100) hb
  unfold roundHalfEven100
  dsimp only
  split
  · next hcond =>
    have hmul : (q.den : ℤ) * ((q.num * 100).fdiv (q.den : ℤ)) ≤ (q.den : ℤ) * m := by
      calc (q.den : ℤ) * ((q.num * 100).fdiv (q.den : ℤ)) ≤ q.num * 100 := hlo
        _ ≤ m * (q.den : ℤ) := h
        _ = (q.den : ℤ) * m := mul_comm _ _
    exact le_of_mul_le_mul_left hmul hb
  · next hcond =>
    push_neg at hcond
    have key : (q.num * 100).fdiv (q.den : ℤ) + 1 ≤ m := by
      have h2a : (q.den : ℤ) * (2 * ((q.num * 100).fdiv (q.den : ℤ)) + 1) ≤
          2 * (q.num * 100) := by nlinarith
      have h2b : 2 * (q.num * 100) ≤ (q.den : ℤ) * (2 * m) := by nlinarith
      have hc := le_of_mul_le_mul_left (le_trans h2a h2b) hb
      omega
    split
    · omega
    · split
      · omega
      · omega

/-- Transport `q ≤ m/100` to the integer inequality on numerator and
denominator. -/
theorem num_bound_of_le_div {q : ℚ} {m : ℤ} (h : q ≤ (m : ℚ) / 100) :
    q.num * 100 ≤ m * (q.den : ℤ) := by
  have hden : (0 : ℚ) < (q.den : ℚ) := by exact_mod_cast q.den_pos
  rw [← Rat.num_div_den q, div_le_div_iff hden (by norm_num : (0:ℚ) < 100)] at h
  exact_mod_cast h

/-- `round2` produces an integer number of hundredths. -/
theorem round2_eq_div (q : ℚ) : round2 q = ((roundHalfEven100 q : ℤ) : ℚ) / 100 :=
  mkRat_hundred_eq _

/-- `round(x, 2)` of a nonnegative value is nonnegative. -/
theorem round2_nonneg {q : ℚ} (hq : 0 ≤ q) : 0 ≤ round2 q := by
  rw [round2_eq_div]
  apply div_nonneg _ (by norm_num)
  exact_mod_cast roundHalfEven100_nonneg hq

/-- `round(x, 2)` respects upper bounds with two decimals. -/
theorem round2_le {q : ℚ} {m : ℤ} (h : q ≤ (m : ℚ) / 100) : round2 q ≤ (m : ℚ) / 100 := by
  rw [round2_eq_div]
  have hk : ((roundHalfEven100 q : ℤ) : ℚ) ≤ (m : ℚ) := by
    exact_mod_cast roundHalfEven100_le (num_bound_of_le_div h)
  exact (div_le_div_right (by norm_num)).mpr hk

/-- Any rating surviving the clamp lies in `[0, 100]` with two decimals. -/
theorem sanitizeRating_some {r0 : Option ℚ} {r : ℚ} (h : sanitizeRating r0 = some r) :
    0 ≤ r ∧ r ≤ 100 ∧ ∃ k : ℤ, r = (k : ℚ) / 100 := by
  cases r0 with
  | none => exact absurd h (by simp [sanitizeRating])
  | some x =>
    unfold sanitizeRating at h
    dsimp only at h
    split at h
    · injection h with h
      subst h
      exact ⟨le_refl 0, by norm_num, 0, by norm_num⟩
    · split at h
      · injection h with h
        subst h
        exact ⟨by norm_num, le_refl (100 : ℚ), 10000, by norm_num⟩
      · next hneg hle =>
        injection h with h
        subst h
        have hx0 : 0 ≤ x := not_lt.mp hneg
        have hx100 : x ≤ ((10000 : ℤ) : ℚ) / 100 := by
          have h100b : (((10000 : ℤ) : ℚ) / 100) = 100 := by norm_num
          rw [h100b]
          exact not_lt.mp hle
        refine ⟨round2_nonneg hx0, ?_, roundHalfEven100 x, round2_eq_div x⟩
        have hr := round2_le hx100
        have h100 : (((10000 : ℤ) : ℚ) / 100) = 100 := by norm_num
        rwa [h100] at hr

/-- The price cap as a division. -/
theorem priceCap_eq : priceCap = ((99999999999 : ℤ) : ℚ) / 100 := mkRat_hundred_eq _

/-- Any price surviving the clamp lies in `[0, 999999999.99]` with two
decimals. -/
theorem sanitizePrice_some {p0 : Option ℚ} {p : ℚ} (h : sanitizePrice p0 = some p) :
    0 ≤ p ∧ p ≤ priceCap ∧ ∃ k : ℤ, p = (k : ℚ) / 100 := by
  cases p0 with
  | none => exact absurd h (by simp [sanitizePrice])
  | some x =>
    unfold sanitizePrice at h
    dsimp only at h
    split at h
    · exact absurd h (by simp)
    · split at h
      · injection h with h
        subst h
        refine ⟨?_, le_refl priceCap, 99999999999, priceCap_eq⟩
        rw [priceCap_eq]
        positivity
      · next hneg hle =>
        injection h with h
        subst h
        have hx0 : 0 ≤ x := not_lt.mp hneg
        have hxcap : x ≤ ((99999999999 : ℤ) : ℚ) / 100 := by
          rw [← priceCap_eq]
          exact not_lt.mp hle
        refine ⟨round2_nonneg hx0, ?_, roundHalfEven100 x, round2_eq_div x⟩
        rw [priceCap_eq]
        exact round2_le hxcap

/-- A negative price is dropped, not clamped. -/
theorem sanitizePrice_neg {x : ℚ} (h : x < 0) : sanitizePrice (some x) = none := by
  unfold sanitizePrice
  dsimp only
  rw [if_pos h]

/-- A review count outside the signed 32-bit range is dropped. -/
theorem sanitizeReviews_out {n : Int} (h : 2147483647 < n ∨ n < -2147483648) :
    sanitizeReviews (some n) = none := by
  unfold sanitizeReviews
  dsimp only
  rcases h with h | h
  · rw [if_neg (by omega), if_pos h]
  · rw [if_pos (by omega)]

/-- Stripping only removes characters. -/
theorem pyStripL_sublist (cs : List Char) : List.Sublist (pyStripL cs) cs := by
  unfold pyStripL
  have h2 : List.Sublist ((cs.dropWhile isPySpace).reverse.dropWhile isPySpace)
      (cs.dropWhile isPySpace).reverse := List.dropWhile_sublist _
  have h3 := h2.reverse
  simp only [List.reverse_reverse] at h3
  exact h3.trans (List.dropWhile_sublist _)

/-- After null-removal and CR/LF-replacement no null, CR or LF remains. -/
theorem scrub_chars (l : List Char) :
    ∀ c ∈ (l.filter (fun c => c != '\x00')).map
        (fun c => if c == '\r' || c == '\n' then ' ' else c),
      c ≠ '\x00' ∧ c ≠ '\r' ∧ c ≠ '\n' := by
  intro c hc
  simp only [List.mem_map] at hc
  obtain ⟨a, ha, rfl⟩ := hc
  simp only [List.mem_filter] at ha
  by_cases hr : (a == '\r' || a == '\n') = true
  · rw [if_pos hr]
    exact ⟨by decide, by decide, by decide⟩
  · rw [if_neg hr]
    have h0 : a ≠ '\x00' := by simpa using ha.2
    simp only [Bool.or_eq_true, beq_iff_eq, not_or] at hr
    exact ⟨h0, hr.1, hr.2⟩

/-- `_sanitize_text` caps the length at `max_length`. -/
theorem sanitizeText_some_length {v : Option String} {m : Nat} {s : String}
    (h : sanitizeText v m = some s) : s.length ≤ m := by
  cases v with
  | none => exact absurd h (by simp [sanitizeText])
  | some s0 =>
    unfold sanitizeText at h
    dsimp only at h
    split at h
    · exact absurd h (by simp)
    · split at h
      · split at h
        · exact absurd h (by simp)
        · injection h with h
          subst h
          refine le_trans (List.Sublist.length_le (pyStripL_sublist _)) ?_
          rw [List.length_take]
          omega
      · split at h
        · exact absurd h (by simp)
        · injection h with h
          subst h
          refine le_trans (List.Sublist.length_le (pyStripL_sublist _)) ?_
          dsimp only
          omega

/-- `_sanitize_text` output contains no null byte, CR or LF. -/
theorem sanitizeText_some_chars {v : Option String} {m : Nat} {s : String}
    (h : sanitizeText v m = some s) :
    ∀ c ∈ s.data, c ≠ '\x00' ∧ c ≠ '\r' ∧ c ≠ '\n' := by
  cases v with
  | none => exact absurd h (by simp [sanitizeText])
  | some s0 =>
    unfold sanitizeText at h
    dsimp only at h
    split at h
    · exact absurd h (by simp)
    · split at h
      · split at h
        · exact absurd h (by simp)
        · injection h with h
          subst h
          intro c hc
          exact scrub_chars _ c
            ((List.take_sublist _ _).subset ((pyStripL_sublist _).subset hc))
      · split at h
        · exact absurd h (by simp)
        · injection h with h
          subst h
          intro c hc
          exact scrub_chars _ c ((pyStripL_sublist _).subset hc)

/-- `_sanitize_url` caps the length at 2048. -/
theorem sanitizeUrl_some_length {v : Option String} {s : String}
    (h : sanitizeUrl v = some s) : s.length ≤ 2048 := by
  cases v with
  | none => exact absurd h (by simp [sanitizeUrl])
  | some s0 =>
    unfold sanitizeUrl at h
    dsimp only at h
    split at h
    · exact absurd h (by simp)
    · split at h
      · split at h
        · exact absurd h (by simp)
        · injection h with h
          subst h
          show (List.take 2048 (pyStrip s0).data).length ≤ 2048
          rw [List.length_take]
          omega
      · split at h
        · exact absurd h (by simp)
        · injection h with h
          subst h
          omega

/-- C5 amended: every record surviving sanitization has its title capped at
500 characters, brand at 200, raw price at 100 and URLs at 2048; null bytes
are removed and CR/LF replaced by spaces in the title (other control
characters are preserved — the original claim's "control characters are
stripped" is what fails); the rating lies in `[0, 100]` and the price in
`[0, 999999999.99]`, both rounded to 2 decimals; a negative price becomes
null; and a review count outside the signed 32-bit range becomes null. -/
theorem c5_amended_sanitization (p : Product) (platform_url : String) (ptid : Option Int)
    (rec : DbRecord) (h : sanitizeRecord p platform_url ptid = some rec) :
    rec.product_name.length ≤ 500
  ∧ (∀ c ∈ rec.product_name.data, c ≠ '\x00' ∧ c ≠ '\r' ∧ c ≠ '\n')
  ∧ (∀ b, rec.brand = some b → b.length ≤ 200)
  ∧ (∀ s, rec.original_price = some s → s.length ≤ 100)
  ∧ rec.product_url.length ≤ 2048
  ∧ (∀ u, rec.product_image_url = some u → u.length ≤ 2048)
  ∧ (∀ r, rec.rating = some r → 0 ≤ r ∧ r ≤ 100 ∧ ∃ k : ℤ, r = (k : ℚ) / 100)
  ∧ (∀ q, rec.current_price = some q → 0 ≤ q ∧ q ≤ priceCap ∧ ∃ k : ℤ, q = (k : ℚ) / 100)
  ∧ (∀ x, p.price = some x → x < 0 → rec.current_price = none)
  ∧ (∀ n, p.review_count = some n → (2147483647 < n ∨ n < -2147483648) →
        rec.reviews = none) := by
  unfold sanitizeRecord at h
  dsimp only at h
  cases hn : sanitizeText p.title 500 with
  | none => rw [hn] at h; simp at h
  | some pn =>
    cases hu : sanitizeUrl p.product_url with
    | none => rw [hn, hu] at h; simp at h
    | some pu =>
      rw [hn, hu] at h
      dsimp only at h
      injection h with h
      subst h
      refine ⟨?_, ?_, ?_, ?_, ?_, ?_, ?_, ?_, ?_, ?_⟩
      · exact sanitizeText_some_length hn
      · exact sanitizeText_some_chars hn
      · intro b hb
        exact sanitizeText_some_length hb
      · intro s hs
        exact sanitizeText_some_length hs
      · exact sanitizeUrl_some_length hu
      · intro u hu2
        exact sanitizeUrl_some_length hu2
      · intro r hr
        exact sanitizeRating_some hr
      · intro q hq
        exact sanitizePrice_some hq
      · intro x hx hneg
        show sanitizePrice p.price = none
        rw [hx]
        exact sanitizePrice_neg hneg
      · intro n hn2 hout
        show sanitizeReviews p.review_count = none
        rw [hn2]
        exact sanitizeReviews_out hout

/-- C5 counterexample: the control character `\x01` in a title survives
sanitization into the persisted record unchanged, refuting "control characters
are stripped from text" (only `\x00` is removed and CR/LF replaced). -/
theorem c5_counterexample :
    ∃ rec, sanitizeRecord { title := some "A\x01B", product_url := some "https://e.com/p/1" }
        "https://e.com" none = some rec
      ∧ rec.product_name = "A\x01B"
      ∧ '\x01' ∈ rec.product_name.data := by
  refine ⟨_, rfl, rfl, ?_⟩
  decide

/-- A concrete product exercising the price and rating clamps. -/
def prodW : Product :=
  { title := some "Blue Shirt", product_url := some "https://e.com/p/1",
    price := some (mkRat 1999 100), rating := some (mkRat 45 10), review_count := some 12 }

/-- C5 witness: the sanitization bounds observed on a concrete record. -/
theorem c5_amended_sanitization_witness :
    ∃ rec, sanitizeRecord prodW "https://e.com" none = some rec
      ∧ rec.product_name.length ≤ 500
      ∧ (∀ q, rec.current_price = some q → 0 ≤ q ∧ q ≤ priceCap ∧ ∃ k : ℤ, q = (k : ℚ) / 100) := by
  obtain ⟨rec, hrec⟩ : ∃ rec, sanitizeRecord prodW "https://e.com" none = some rec := ⟨_, rfl⟩
  have h := c5_amended_sanitization prodW "https://e.com" none rec hrec
  exact ⟨rec, hrec, h.1, h.2.2.2.2.2.2.2.1⟩

end Crawler
